import Mathlib

/-!
A verification model of the NHL statistics engine in `final.py`.

The pandas DataFrames are embedded as lists of typed rows; a column that a
method may add in place (`Points`, `SavePercentage`) is an `Option` field that
is `none` while the column is absent.  Integer columns are modelled by `Int`
(values in this domain are far below the int64 width) and float64 results of
column division by `PFloat`: an exact rational for a finite value plus the two
infinities and NaN.  Methods that assign a column in place are modelled in
state-passing style: they return the state of the caller's frame after the
call together with the returned frame.  `sort_values(ascending=False)` is
modelled as a descending insertion sort with NaN keys placed last in input
order, following pandas' nargsort.  pandas' default quicksort kernel agrees
with this model on the key order, the row multiset and the head length at
every size, but guarantees the model's input-order placement of equal keys
only on small arrays (numpy's introsort falls back to a stable insertion sort
below its small-array threshold); accordingly the theorems below use tie
order only on two-row inputs.  Python
objects (`Player`, `Goalie`) are embedded as their attribute tables so that a
lookup of an attribute the constructor never set is an observable
`AttributeError`, and the sqlite table is a list of rows.
-/

/-- Model of an IEEE-754 float64 value as produced by dividing integer pandas
columns: an exact rational stands in for a finite float, plus the two
infinities and NaN. -/
inductive PFloat where
  | finite (q : ℚ)
  | pinf
  | minf
  | nan
deriving DecidableEq

/-- Strict less-than on modelled float64 values, as consulted by the sort.
The sort pipeline removes NaN keys before comparing (as pandas' nargsort
does), so the NaN rows of this table are never reached by the ranking
functions; they place NaN below every number so the function is total and
order-like everywhere. -/
def pfLtB : PFloat → PFloat → Bool
  | .nan, .nan => false
  | .nan, _ => true
  | _, .nan => false
  | .minf, .minf => false
  | .minf, _ => true
  | _, .minf => false
  | .finite a, .finite b => decide (a < b)
  | .finite _, .pinf => true
  | .pinf, _ => false

/-- Whether a modelled float64 value is NaN (pandas `isna` on a float column). -/
def isNanB : PFloat → Bool
  | .nan => true
  | _ => false

/-- numpy float64 division of the integer columns `SV` and `SA`: a finite
quotient when the divisor is nonzero, otherwise signed infinity or NaN.
It never raises. -/
def pdDiv (sv sa : Int) : PFloat :=
  if sa = 0 then
    if 0 < sv then .pinf else if sv < 0 then .minf else .nan
  else .finite ((sv : ℚ) / (sa : ℚ))

/-- A row of the skaters DataFrame: columns Player Name, Team, Pos, G, A,
PIM, Hits, and the derived Points column (`none` while the column is absent). -/
structure SkaterRow where
  playerName : String
  team : String
  pos : String
  g : Int
  a : Int
  pim : Int
  hits : Int
  points : Option Int
deriving DecidableEq

/-- A row of the frame returned by `calculate_points`: the projection
onto the Player Name and Points columns. -/
structure PointsRow where
  playerName : String
  points : Int
deriving DecidableEq

/-- A row of the goalies DataFrame: columns Player Name, Team, SV, SA, and
the derived SavePercentage column (`none` while the column is absent). -/
structure GoalieRow where
  playerName : String
  team : String
  sv : Int
  sa : Int
  savePercentage : Option PFloat
deriving DecidableEq

/-- A row of the frame returned by `calculate_save_percentage`: the projection
onto the Player Name and SavePercentage columns. -/
structure SavePctRow where
  playerName : String
  savePercentage : PFloat
deriving DecidableEq

/-- Insert an element into a descending-sorted list, after every element that
is strictly greater (so ties keep input order). -/
def insertDesc {α : Type _} (gtB : α → α → Bool) (x : α) : List α → List α
  | [] => [x]
  | y :: ys => if gtB y x then y :: insertDesc gtB x ys else x :: y :: ys

/-- Descending insertion sort, placing equal keys in input order.  pandas
`sort_values(ascending=False)` produces this key order and row multiset at
every size; its default quicksort kernel guarantees the input-order placement
of equal keys only on small arrays, so tie order is used by theorems only on
two-row inputs. -/
def sortDesc {α : Type _} (gtB : α → α → Bool) : List α → List α
  | [] => []
  | x :: xs => insertDesc gtB x (sortDesc gtB xs)

/-- pandas `DataFrame.head(n)`, i.e. the Python slice `df[:n]`: the first
`n` rows for nonnegative `n`, and all but the last `-n` rows for negative
`n`. -/
def pdHead {α : Type _} (n : Int) (xs : List α) : List α :=
  if 0 ≤ n then xs.take n.toNat else xs.take ((xs.length : Int) + n).toNat

/-- `DataHandler.filter_skaters_by_position`: the boolean-mask selection
of the rows whose Pos column equals the requested position; returns a new
frame. -/
def filter_skaters_by_position (skaters : List SkaterRow) (position : String) :
    List SkaterRow :=
  skaters.filter (fun r => decide (r.pos = position))

/-- `DataHandler.calculate_points`.  The method assigns
`skaters['Points'] = skaters['G'] + skaters['A']` in place and then returns
the projection `skaters[['Player Name', 'Points']]`.  The first component is
the state of the caller's frame after the call (the column has been added);
the second is the returned frame. -/
def calculate_points (skaters : List SkaterRow) :
    List SkaterRow × List PointsRow :=
  let mutated := skaters.map (fun r => { r with points := some (r.g + r.a) })
  (mutated, mutated.map (fun r =>
    { playerName := r.playerName, points := r.points.getD 0 }))

/-- The Points sort key of a skater row.  The ranking functions are applied to
frames whose Points column is populated; the default for an absent column
only makes the function total. -/
def skaterPointsKey (r : SkaterRow) : Int := r.points.getD 0

/-- The comparator used to sort skaters by Points descending. -/
def skaterGtB (r s : SkaterRow) : Bool :=
  decide (skaterPointsKey s < skaterPointsKey r)

/-- `DataHandler.top_players_by_points`: sort by the Points column descending
(`sort_values`), then take the first `num_players` rows (`head`). -/
def top_players_by_points (skaters : List SkaterRow) (num_players : Int) :
    List SkaterRow :=
  pdHead num_players (sortDesc skaterGtB skaters)

/-- Rename the Player Name column of a skater row, leaving every other
column unchanged (used to state that the ranker never consults names). -/
def renameSkater (f : String → String) (r : SkaterRow) : SkaterRow :=
  { r with playerName := f r.playerName }

/-- `DataHandler.calculate_save_percentage`.  The method assigns
`goalies['SavePercentage'] = goalies['SV'] / goalies['SA']` in place and then
returns the projection `goalies[['Player Name', 'SavePercentage']]`.  The
first component is the state of the caller's frame after the call; the second
is the returned frame. -/
def calculate_save_percentage (goalies : List GoalieRow) :
    List GoalieRow × List SavePctRow :=
  let mutated := goalies.map (fun r =>
    { r with savePercentage := some (pdDiv r.sv r.sa) })
  (mutated, mutated.map (fun r =>
    { playerName := r.playerName,
      savePercentage := r.savePercentage.getD PFloat.nan }))

/-- The SavePercentage sort key of a goalie row (see `skaterPointsKey` on the
default). -/
def goalieKey (r : GoalieRow) : PFloat := r.savePercentage.getD PFloat.nan

/-- The comparator used to sort goalies by SavePercentage descending. -/
def goalieGtB (r s : GoalieRow) : Bool := pfLtB (goalieKey s) (goalieKey r)

/-- `DataHandler.top_goalies_by_save_percentage`: sort by the SavePercentage
column descending and take the first `num_goalies` rows.  Following pandas
`nargsort` with the default `na_position='last'`, the rows with NaN keys are
removed before the descending sort and appended afterwards in input order. -/
def top_goalies_by_save_percentage (goalies : List GoalieRow) (num_goalies : Int) :
    List GoalieRow :=
  pdHead num_goalies
    (sortDesc goalieGtB (goalies.filter (fun r => !isNanB (goalieKey r)))
      ++ goalies.filter (fun r => isNanB (goalieKey r)))

/-- The call semantics of `filter_skaters_by_position`: the state of the
caller's frame after the call paired with the returned frame.  Boolean-mask
selection builds a new frame and never writes to its input. -/
def filter_skaters_by_position_call (skaters : List SkaterRow) (p : String) :
    List SkaterRow × List SkaterRow :=
  (skaters, filter_skaters_by_position skaters p)

/-- The call semantics of `top_players_by_points`: `sort_values` (with the
default `inplace=False`) and `head` build new frames and never write to the
input. -/
def top_players_by_points_call (skaters : List SkaterRow) (n : Int) :
    List SkaterRow × List SkaterRow :=
  (skaters, top_players_by_points skaters n)

/-- The call semantics of `top_goalies_by_save_percentage` (see
`top_players_by_points_call`). -/
def top_goalies_by_save_percentage_call (goalies : List GoalieRow) (n : Int) :
    List GoalieRow × List GoalieRow :=
  (goalies, top_goalies_by_save_percentage goalies n)

/-- A Python attribute value appearing in this program: a string or an int. -/
inductive PyVal where
  | str (s : String)
  | int (n : Int)
deriving DecidableEq

/-- A Python object, embedded as its attribute table in assignment order. -/
abbrev PyObj := List (String × PyVal)

/-- Python attribute lookup on an object: `none` is an `AttributeError`. -/
def pyGetAttr : PyObj → String → Option PyVal
  | [], _ => none
  | kv :: rest, attr => if kv.1 = attr then some kv.2 else pyGetAttr rest attr

/-- `Player.__init__(name, team, position, goals, penalty_minutes)`: sets
exactly those five attributes. -/
def Player_init (name team position : String) (goals penalty_minutes : Int) :
    PyObj :=
  [("name", .str name), ("team", .str team), ("position", .str position),
    ("goals", .int goals), ("penalty_minutes", .int penalty_minutes)]

/-- `Goalie.__init__(name, country, saves, goals_allowed)`: calls
`Player.__init__(name, country, position="Goalie", goals=0,
penalty_minutes=0)` (so the `country` argument lands in the `team` attribute)
and then sets `saves` and `goals_allowed`. -/
def Goalie_init (name country : String) (saves goals_allowed : Int) : PyObj :=
  Player_init name country "Goalie" 0 0
    ++ [("saves", .int saves), ("goals_allowed", .int goals_allowed)]

/-- The column names of the sqlite table created by
`DataHandler.create_database`. -/
def playersTableColumns : List String :=
  ["name", "country", "position", "goals", "penalty_minutes"]

/-- Attribute access during the INSERT: a missing attribute is an
`AttributeError` carrying the attribute name. -/
def attrOrErr (player : PyObj) (attr : String) : Except String PyVal :=
  match pyGetAttr player attr with
  | some v => .ok v
  | none => .error attr

/-- One execution of the INSERT statement of `create_database`: the bound
tuple `(player.name, player.country, player.position, player.goals,
player.penalty_minutes)` is evaluated left to right. -/
def insertRow (player : PyObj) : Except String (List PyVal) := do
  let n ← attrOrErr player "name"
  let c ← attrOrErr player "country"
  let p ← attrOrErr player "position"
  let g ← attrOrErr player "goals"
  let pm ← attrOrErr player "penalty_minutes"
  return [n, c, p, g, pm]

/-- The INSERT loop of `create_database` over the players list. -/
def insertRows : List PyObj → Except String (List (List PyVal))
  | [] => .ok []
  | p :: ps =>
    match insertRow p, insertRows ps with
    | .ok r, .ok rs => .ok (r :: rs)
    | .error e, _ => .error e
    | .ok _, .error e => .error e

/-- `DataHandler.create_database`: `CREATE TABLE IF NOT EXISTS` keeps the
existing rows of the `players` table (`table` is its current content), the
loop appends one row per player, and `conn.commit()` runs only after every
insert succeeded, so an `AttributeError` raised inside the loop leaves the
table unchanged and propagates the missing attribute. -/
def create_database (table : List (List PyVal)) (players : List PyObj) :
    Except String (List (List PyVal)) :=
  match insertRows players with
  | .ok rows => .ok (table ++ rows)
  | .error e => .error e

/-- Uppercase ASCII letter test, i.e. the character class of the regex
`([A-Z]+)` in `extract_team_code`. -/
def isUpperAscii (c : Char) : Bool := decide ('A' ≤ c) && decide (c ≤ 'Z')

/-- After at least one uppercase letter has been consumed: accept the rest of
an uppercase run terminated by a closing parenthesis, returning the remaining
letters of the run. -/
def grabRest : List Char → Option (List Char)
  | [] => none
  | c :: cs =>
    if c = ')' then some []
    else if isUpperAscii c then (grabRest cs).map (fun t => c :: t)
    else none

/-- Attempt of the regex `([A-Z]+)\x29` right after an opening parenthesis:
one or more uppercase letters followed by the closing parenthesis, returning
the captured group. -/
def grabCode : List Char → Option (List Char)
  | [] => none
  | c :: cs =>
    if isUpperAscii c then (grabRest cs).map (fun t => c :: t) else none

/-- `re.search` of the pattern used by `extract_team_code`: try a match at
each position left to right and return the first success, together with the
index where it matched. -/
def scanMatch : List Char → Option (Nat × List Char)
  | [] => none
  | c :: cs =>
    if c = '(' then
      match grabCode cs with
      | some t => some (0, t)
      | none => (scanMatch cs).map (fun p => (p.1 + 1, p.2))
    else (scanMatch cs).map (fun p => (p.1 + 1, p.2))

/-- `DataHandler.extract_team_code`: the first parenthesized run of one or
more uppercase ASCII letters in the input, or `None` when the pattern does
not occur. -/
def extract_team_code (player_info : String) : Option String :=
  match scanMatch player_info.data with
  | some p => some (String.mk p.2)
  | none => none

/-- The occurrence of a parenthesized uppercase code `t` at position `i` of
the character list `cs` (specification-side description of a regex match of
`extract_team_code`'s pattern). -/
def codeAt (cs : List Char) (i : Nat) (t : List Char) : Prop :=
  t ≠ [] ∧ (∀ c ∈ t, isUpperAscii c = true) ∧
    (cs.drop i).take (t.length + 2) = '(' :: (t ++ [')'])

/-! ## Helper lemmas about the sorting model -/

lemma length_insertDesc {α : Type _} (gtB : α → α → Bool) (x : α) (l : List α) :
    (insertDesc gtB x l).length = l.length + 1 := by
  induction l with
  | nil => rfl
  | cons y ys ih => by_cases h : gtB y x = true <;> simp [insertDesc, h, ih]

lemma length_sortDesc {α : Type _} (gtB : α → α → Bool) (l : List α) :
    (sortDesc gtB l).length = l.length := by
  induction l with
  | nil => rfl
  | cons x xs ih => rw [sortDesc, length_insertDesc, ih, List.length_cons]

lemma insertDesc_perm {α : Type _} (gtB : α → α → Bool) (x : α) (l : List α) :
    List.Perm (insertDesc gtB x l) (x :: l) := by
  induction l with
  | nil => exact List.Perm.refl _
  | cons y ys ih =>
    by_cases h : gtB y x = true
    · rw [insertDesc, if_pos h]
      exact (ih.cons y).trans (List.Perm.swap x y ys)
    · rw [insertDesc, if_neg h]

lemma sortDesc_perm {α : Type _} (gtB : α → α → Bool) (l : List α) :
    List.Perm (sortDesc gtB l) l := by
  induction l with
  | nil => exact List.Perm.refl _
  | cons x xs ih => exact (insertDesc_perm gtB x (sortDesc gtB xs)).trans (ih.cons x)

lemma pairwise_insertDesc {α : Type _} {gtB : α → α → Bool}
    (Hasym : ∀ a b, gtB a b = true → gtB b a = false)
    (Hnegtrans : ∀ a b c, gtB a b = false → gtB b c = false → gtB a c = false)
    (x : α) {l : List α} (hl : l.Pairwise (fun a b => gtB b a = false)) :
    (insertDesc gtB x l).Pairwise (fun a b => gtB b a = false) := by
  induction l with
  | nil => simp [insertDesc]
  | cons y ys ih =>
    rcases List.pairwise_cons.mp hl with ⟨hy, hys⟩
    by_cases h : gtB y x = true
    · rw [insertDesc, if_pos h]
      refine List.pairwise_cons.mpr ⟨?_, ih hys⟩
      intro z hz
      rcases List.mem_cons.mp ((insertDesc_perm gtB x ys).mem_iff.mp hz) with rfl | hzys
      · exact Hasym y z h
      · exact hy z hzys
    · have hyx : gtB y x = false := by
        cases hv : gtB y x
        · rfl
        · exact absurd hv h
      rw [insertDesc, if_neg h]
      refine List.pairwise_cons.mpr ⟨?_, hl⟩
      intro z hz
      rcases List.mem_cons.mp hz with rfl | hzys
      · exact hyx
      · exact Hnegtrans z y x (hy z hzys) hyx

lemma pairwise_sortDesc {α : Type _} {gtB : α → α → Bool}
    (Hasym : ∀ a b, gtB a b = true → gtB b a = false)
    (Hnegtrans : ∀ a b c, gtB a b = false → gtB b c = false → gtB a c = false)
    (l : List α) :
    (sortDesc gtB l).Pairwise (fun a b => gtB b a = false) := by
  induction l with
  | nil => simp [sortDesc]
  | cons x xs ih => exact pairwise_insertDesc Hasym Hnegtrans x ih

lemma insertDesc_map_invariant {α : Type _} {gtB : α → α → Bool} (g : α → α)
    (hg : ∀ a b, gtB (g a) (g b) = gtB a b) (x : α) (l : List α) :
    insertDesc gtB (g x) (l.map g) = (insertDesc gtB x l).map g := by
  induction l with
  | nil => rfl
  | cons y ys ih =>
    show insertDesc gtB (g x) (g y :: ys.map g) = (insertDesc gtB x (y :: ys)).map g
    rw [insertDesc, insertDesc, hg y x]
    by_cases h : gtB y x = true
    · rw [if_pos h, if_pos h, List.map_cons, ih]
    · rw [if_neg h, if_neg h, List.map_cons, List.map_cons]

lemma sortDesc_map_invariant {α : Type _} {gtB : α → α → Bool} (g : α → α)
    (hg : ∀ a b, gtB (g a) (g b) = gtB a b) (l : List α) :
    sortDesc gtB (l.map g) = (sortDesc gtB l).map g := by
  induction l with
  | nil => rfl
  | cons x xs ih =>
    show sortDesc gtB (g x :: xs.map g) = _
    rw [sortDesc, sortDesc, ih, insertDesc_map_invariant g hg]

lemma pdHead_map {α β : Type _} (g : α → β) (n : Int) (xs : List α) :
    pdHead n (xs.map g) = (pdHead n xs).map g := by
  unfold pdHead
  rw [List.length_map]
  split <;> rw [List.map_take]

lemma length_filter_not_split {α : Type _} (p : α → Bool) (l : List α) :
    (l.filter (fun a => !p a)).length + (l.filter p).length = l.length := by
  induction l with
  | nil => rfl
  | cons a l ih => cases h : p a <;> simp [h] <;> omega

lemma pdHead_length_nonneg {α : Type _} {n : Int} (hn : 0 ≤ n) (xs : List α) :
    (pdHead n xs).length = min n.toNat xs.length := by
  unfold pdHead
  rw [if_pos hn, List.length_take]

lemma pdHead_length_neg {α : Type _} {n : Int} (hn : n < 0) (xs : List α) :
    (pdHead n xs).length = xs.length - (-n).toNat := by
  unfold pdHead
  rw [if_neg (by omega), List.length_take]
  omega

lemma pdHead_of_le {α : Type _} {n : Int} {xs : List α} (h : (xs.length : Int) ≤ n) :
    pdHead n xs = xs := by
  have h0 : 0 ≤ n := le_trans (Int.natCast_nonneg _) h
  unfold pdHead
  rw [if_pos h0]
  exact List.take_of_length_le (by omega)

/-! ## Helper lemmas about the Transformer -/

lemma calculate_points_fst (df : List SkaterRow) :
    (calculate_points df).1
      = df.map (fun r => { r with points := some (r.g + r.a) }) := rfl

lemma calculate_points_snd (df : List SkaterRow) :
    (calculate_points df).2
      = df.map (fun r => { playerName := r.playerName, points := r.g + r.a }) := by
  show (df.map _).map _ = _
  rw [List.map_map]
  rfl

lemma calculate_save_percentage_fst (gdf : List GoalieRow) :
    (calculate_save_percentage gdf).1
      = gdf.map (fun r => { r with savePercentage := some (pdDiv r.sv r.sa) }) := rfl

lemma calculate_save_percentage_snd (gdf : List GoalieRow) :
    (calculate_save_percentage gdf).2
      = gdf.map (fun r =>
          { playerName := r.playerName, savePercentage := pdDiv r.sv r.sa }) := by
  show (gdf.map _).map _ = _
  rw [List.map_map]
  rfl

lemma calculate_points_snd_factor (df : List SkaterRow) :
    (calculate_points df).2
      = (df.map (fun r => (r.playerName, r.g + r.a))).map
          (fun p => { playerName := p.1, points := p.2 }) := by
  rw [calculate_points_snd, List.map_map]
  rfl

lemma calculate_save_percentage_snd_factor (gdf : List GoalieRow) :
    (calculate_save_percentage gdf).2
      = (gdf.map (fun r => (r.playerName, r.sv, r.sa))).map
          (fun p => { playerName := p.1, savePercentage := pdDiv p.2.1 p.2.2 }) := by
  rw [calculate_save_percentage_snd, List.map_map]
  rfl

/-! ## Claim C2 -/

/-- C2: for every skater frame, the derived Points values computed by
`calculate_points` equal goals plus assists exactly, in integer arithmetic,
both in the returned projection and in the Points column written onto the
input frame. -/
theorem claim2_points_eq_goals_plus_assists (df : List SkaterRow) :
    (calculate_points df).2
        = df.map (fun r => { playerName := r.playerName, points := r.g + r.a })
      ∧ ∀ r ∈ (calculate_points df).1, r.points = some (r.g + r.a) := by
  refine ⟨calculate_points_snd df, ?_⟩
  intro r hr
  rw [calculate_points_fst] at hr
  rcases List.mem_map.mp hr with ⟨s, _, rfl⟩
  rfl

/-- Witness for C2 at a concrete row: the derived row carries 2 + 3. -/
theorem claim2_points_eq_goals_plus_assists_witness :
    ((⟨"A", "BOS", "Forward", 2, 3, 0, 0, some 5⟩ : SkaterRow)).points
      = some (2 + 3) :=
  (claim2_points_eq_goals_plus_assists
      [⟨"A", "BOS", "Forward", 2, 3, 0, 0, none⟩]).2
    ⟨"A", "BOS", "Forward", 2, 3, 0, 0, some 5⟩ (by decide)

/-! ## Claim C1 -/

/-- C1 counterexample: a goalie row with `SA = 0` and `SV = 5` makes
`calculate_save_percentage` hand the caller float64 positive infinity in the
returned frame — not an undefined sentinel — contradicting the claim that the
computation never returns NaN or infinity to the caller. -/
theorem claim1_counterexample :
    (calculate_save_percentage [(⟨"G", "T", 5, 0, none⟩ : GoalieRow)]).2
      = [{ playerName := "G", savePercentage := PFloat.pinf }] := by decide

/-- C1 amended: for a goalie row with `SA = 0` (and nonnegative `SV`), the
division never raises but produces NaN when `SV = 0` and positive infinity
otherwise; in particular the value is not finite, hence never equals 0 or 1. -/
theorem claim1_zero_shots_policy (gdf : List GoalieRow) (r : GoalieRow) (i : Nat)
    (hr : gdf.get? i = some r) (hsa : r.sa = 0) (hsv : 0 ≤ r.sv) :
    (calculate_save_percentage gdf).2.get? i
        = some { playerName := r.playerName,
                 savePercentage := if r.sv = 0 then PFloat.nan else PFloat.pinf }
      ∧ ∀ q : ℚ, (if r.sv = 0 then PFloat.nan else PFloat.pinf) ≠ PFloat.finite q := by
  have hdiv : pdDiv r.sv r.sa = if r.sv = 0 then PFloat.nan else PFloat.pinf := by
    rw [hsa]
    unfold pdDiv
    rw [if_pos rfl]
    by_cases h0 : r.sv = 0
    · simp [h0]
    · have hpos : 0 < r.sv := lt_of_le_of_ne hsv (Ne.symm h0)
      simp [h0, hpos, not_lt_of_lt hpos]
  constructor
  · rw [calculate_save_percentage_snd, List.get?_map, hr]
    simp [hdiv]
  · intro q
    split <;> simp

/-- Witness for C1 (amended) at a concrete goalie with 5 saves on 0 shots. -/
theorem claim1_zero_shots_policy_witness :
    (calculate_save_percentage [(⟨"G", "T", 5, 0, none⟩ : GoalieRow)]).2.get? 0
      = some { playerName := "G", savePercentage := PFloat.pinf } := by
  have h := (claim1_zero_shots_policy [⟨"G", "T", 5, 0, none⟩]
    ⟨"G", "T", 5, 0, none⟩ 0 rfl rfl (by decide)).1
  simpa using h

/-! ## Claim C3 -/

/-- C3 counterexample: with a two-row frame and `n = -1` (so `n ≤ 0`), the
ranker returns one row, not the empty frame the claim demands. -/
theorem claim3_counterexample :
    top_players_by_points
        [⟨"A", "BOS", "Forward", 1, 1, 0, 0, some 2⟩,
         ⟨"B", "NYR", "Forward", 1, 0, 0, 0, some 1⟩] (-1)
      = [⟨"A", "BOS", "Forward", 1, 1, 0, 0, some 2⟩] := by decide

/-- C3 amended: for `n ≥ 0` both rankers return `min n |input|` rows, and for
`n < 0` they follow the Python slice `df[:n]` and return the first
`|input| - |n|` rows (clamped at zero) — empty only when `|n| ≥ |input|`. -/
theorem claim3_top_n_length (df : List SkaterRow) (gdf : List GoalieRow) (n : Int) :
    (0 ≤ n →
        (top_players_by_points df n).length = min n.toNat df.length
      ∧ (top_goalies_by_save_percentage gdf n).length = min n.toNat gdf.length)
    ∧ (n < 0 →
        (top_players_by_points df n).length = df.length - (-n).toNat
      ∧ (top_goalies_by_save_percentage gdf n).length = gdf.length - (-n).toNat) := by
  have hs : (sortDesc skaterGtB df).length = df.length := length_sortDesc _ _
  have hg : (sortDesc goalieGtB (gdf.filter (fun r => !isNanB (goalieKey r)))
        ++ gdf.filter (fun r => isNanB (goalieKey r))).length = gdf.length := by
    rw [List.length_append, length_sortDesc]
    exact length_filter_not_split (fun r => isNanB (goalieKey r)) gdf
  refine ⟨fun hn => ⟨?_, ?_⟩, fun hn => ⟨?_, ?_⟩⟩
  · unfold top_players_by_points
    rw [pdHead_length_nonneg hn, hs]
  · unfold top_goalies_by_save_percentage
    rw [pdHead_length_nonneg hn, hg]
  · unfold top_players_by_points
    rw [pdHead_length_neg hn, hs]
  · unfold top_goalies_by_save_percentage
    rw [pdHead_length_neg hn, hg]

/-- Witness for C3 (amended) at a one-row frame and `n = 1`. -/
theorem claim3_top_n_length_witness :
    (0 : Int) ≤ 1
    ∧ (top_players_by_points
        [(⟨"A", "BOS", "Forward", 1, 1, 0, 0, some 2⟩ : SkaterRow)] 1).length
        = min (1 : Int).toNat 1 :=
  ⟨by decide,
    ((claim3_top_n_length [⟨"A", "BOS", "Forward", 1, 1, 0, 0, some 2⟩] [] 1).1
      (by decide)).1⟩

/-! ## Claim C7 -/

/-- C7 counterexample: `calculate_points` does mutate its input frame — after
the call the caller's frame carries the added Points column, so it differs
from the frame that was passed in. -/
theorem claim7_counterexample :
    (calculate_points [(⟨"A", "BOS", "Forward", 1, 2, 3, 4, none⟩ : SkaterRow)]).1
      ≠ [(⟨"A", "BOS", "Forward", 1, 2, 3, 4, none⟩ : SkaterRow)] := by decide

/-- C7 amended: filtering and ranking leave the caller's frame untouched, but
the two Transformer methods mutate it in place — exactly by populating the
derived column, leaving every other field, the row count and the row order
unchanged. -/
theorem claim7_mutation_policy (df : List SkaterRow) (gdf : List GoalieRow)
    (p : String) (n m : Int) :
    (filter_skaters_by_position_call df p).1 = df
    ∧ (top_players_by_points_call df n).1 = df
    ∧ (top_goalies_by_save_percentage_call gdf m).1 = gdf
    ∧ (calculate_points df).1.map (fun r => { r with points := none })
        = df.map (fun r => { r with points := none })
    ∧ (calculate_save_percentage gdf).1.map (fun r => { r with savePercentage := none })
        = gdf.map (fun r => { r with savePercentage := none }) := by
  refine ⟨rfl, rfl, rfl, ?_, ?_⟩
  · rw [calculate_points_fst, List.map_map]
    rfl
  · rw [calculate_save_percentage_fst, List.map_map]
    rfl

/-! ## Claim C8 -/

/-- C8 counterexample: the frames returned by the Transformer do not carry the
uninvolved fields.  Two skater frames that differ only in team, penalty
minutes and hits produce identical `calculate_points` results, and two goalie
frames that differ only in team produce identical `calculate_save_percentage`
results, so the returned collections cannot carry those fields. -/
theorem claim8_counterexample :
    ((calculate_points [(⟨"A", "BOS", "Forward", 1, 2, 30, 7, none⟩ : SkaterRow)]).2
        = (calculate_points [(⟨"A", "NYR", "Forward", 1, 2, 0, 0, none⟩ : SkaterRow)]).2)
    ∧ ([(⟨"A", "BOS", "Forward", 1, 2, 30, 7, none⟩ : SkaterRow)]
        ≠ [(⟨"A", "NYR", "Forward", 1, 2, 0, 0, none⟩ : SkaterRow)])
    ∧ ((calculate_save_percentage [(⟨"G", "BOS", 9, 10, none⟩ : GoalieRow)]).2
        = (calculate_save_percentage [(⟨"G", "NYR", 9, 10, none⟩ : GoalieRow)]).2)
    ∧ ([(⟨"G", "BOS", 9, 10, none⟩ : GoalieRow)]
        ≠ [(⟨"G", "NYR", 9, 10, none⟩ : GoalieRow)]) :=
  ⟨rfl, by decide, rfl, by decide⟩

/-- C8 amended: the frame returned by `calculate_points` is the projection
onto Player Name and Points, so it depends only on each row's name and
goals + assists; the goalie projection depends only on name, SV and SA.  The
uninvolved fields survive only on the mutated input frame (see C7), not on
the returned one. -/
theorem claim8_projection_dependency (df1 df2 : List SkaterRow)
    (g1 g2 : List GoalieRow) :
    (df1.map (fun r => (r.playerName, r.g + r.a))
        = df2.map (fun r => (r.playerName, r.g + r.a))
      → (calculate_points df1).2 = (calculate_points df2).2)
    ∧ (g1.map (fun r => (r.playerName, r.sv, r.sa))
        = g2.map (fun r => (r.playerName, r.sv, r.sa))
      → (calculate_save_percentage g1).2 = (calculate_save_percentage g2).2) := by
  constructor
  · intro h
    rw [calculate_points_snd_factor, calculate_points_snd_factor, h]
  · intro h
    rw [calculate_save_percentage_snd_factor, calculate_save_percentage_snd_factor, h]

/-- Witness for C8 (amended): two frames differing only in team, penalty
minutes and hits satisfy the hypothesis and get equal results. -/
theorem claim8_projection_dependency_witness :
    (calculate_points [(⟨"A", "BOS", "Forward", 1, 2, 30, 7, none⟩ : SkaterRow)]).2
      = (calculate_points [(⟨"A", "NYR", "Forward", 1, 2, 0, 0, none⟩ : SkaterRow)]).2 :=
  (claim8_projection_dependency [⟨"A", "BOS", "Forward", 1, 2, 30, 7, none⟩]
    [⟨"A", "NYR", "Forward", 1, 2, 0, 0, none⟩] [] []).1 (by decide)

/-! ## Claim C9 -/

/-- C9: the INSERT of `create_database` reads `player.country`, an attribute
`Player.__init__` never sets, so saving a `Player` raises `AttributeError`
before any row is written; moreover the table's second column is named
`country`, not `team` as the specification requires. -/
theorem claim9_create_database_attribute_err :
    create_database [] [Player_init "A" "BOS" "Forward" 1 2]
        = Except.error "country"
    ∧ playersTableColumns
        ≠ ["name", "team", "position", "goals", "penalty_minutes"] :=
  ⟨rfl, by decide⟩

/-! ## Claim C10 -/

/-- C10: constructing a `Goalie` always sets `position` to "Goalie", `goals`
to 0 and `penalty_minutes` to 0, whatever `saves` and `goals_allowed` are;
consequently the snapshot written by `create_database` for a goalie is
invariant in `saves` and `goals_allowed` (indeed the call raises
`AttributeError` on `country` before writing any row, so no goalie row ever
reflects them). -/
theorem claim10_goalie_ctor_invariants :
    ∀ (name country : String) (saves goals_allowed : Int),
      pyGetAttr (Goalie_init name country saves goals_allowed) "position"
          = some (.str "Goalie")
      ∧ pyGetAttr (Goalie_init name country saves goals_allowed) "goals"
          = some (.int 0)
      ∧ pyGetAttr (Goalie_init name country saves goals_allowed) "penalty_minutes"
          = some (.int 0)
      ∧ ∀ (table : List (List PyVal)) (s2 g2 : Int),
          create_database table [Goalie_init name country saves goals_allowed]
            = create_database table [Goalie_init name country s2 g2] :=
  fun _ _ _ _ => ⟨rfl, rfl, rfl, fun _ _ _ => rfl⟩

/-! ## Order lemmas for the float model -/

lemma pfLtB_asymm (a b : PFloat) (h : pfLtB a b = true) : pfLtB b a = false := by
  cases a <;> cases b <;> simp_all [pfLtB]
  exact le_of_lt h

lemma pfLtB_negtrans (a b c : PFloat) (h1 : pfLtB a b = false)
    (h2 : pfLtB b c = false) : pfLtB a c = false := by
  cases a <;> cases b <;> cases c <;> simp_all [pfLtB]
  linarith

lemma pfLtB_nan_right (x : PFloat) : pfLtB x PFloat.nan = false := by
  cases x <;> rfl

lemma isNanB_true {x : PFloat} (h : isNanB x = true) : x = PFloat.nan := by
  cases x <;> simp_all [isNanB]

lemma goalieGtB_asymm (a b : GoalieRow) (h : goalieGtB a b = true) :
    goalieGtB b a = false :=
  pfLtB_asymm _ _ h

lemma goalieGtB_negtrans (a b c : GoalieRow) (h1 : goalieGtB a b = false)
    (h2 : goalieGtB b c = false) : goalieGtB a c = false :=
  pfLtB_negtrans _ _ _ h2 h1

/-! ## Claim C4 -/

/-- C4 counterexample: after deriving save percentages for a goalie with
5 saves on 0 shots (an undefined metric per the claim) and a goalie with a
defined 0.9, the ranker puts the zero-shots goalie FIRST: its +infinity key
sorts above every defined value instead of last. -/
theorem claim4_counterexample :
    (top_goalies_by_save_percentage
        ((calculate_save_percentage
            [⟨"NoShots", "X", 5, 0, none⟩, ⟨"Busy", "Y", 9, 10, none⟩]).1) 5).map
        (fun r => (r.playerName, r.sa))
      = [("NoShots", 0), ("Busy", 10)] := by decide

/-- C4 amended: the ranked output is ordered descending by the float64 key —
so NaN keys (zero shots AND zero saves) come after every other row, while
+infinity keys (zero shots, positive saves) come before every finite value —
and when `n` covers the whole collection no row is dropped. -/
theorem claim4_sentinel_ordering (gdf : List GoalieRow) (n : Int) :
    (top_goalies_by_save_percentage gdf n).Pairwise
        (fun a b => pfLtB (goalieKey a) (goalieKey b) = false)
    ∧ ((gdf.length : Int) ≤ n →
        ∀ r ∈ gdf, r ∈ top_goalies_by_save_percentage gdf n) := by
  have hlen : (sortDesc goalieGtB (gdf.filter (fun r => !isNanB (goalieKey r)))
      ++ gdf.filter (fun r => isNanB (goalieKey r))).length = gdf.length := by
    rw [List.length_append, length_sortDesc]
    exact length_filter_not_split (fun r => isNanB (goalieKey r)) gdf
  constructor
  · have hp : (sortDesc goalieGtB (gdf.filter (fun r => !isNanB (goalieKey r)))
        ++ gdf.filter (fun r => isNanB (goalieKey r))).Pairwise
        (fun a b => pfLtB (goalieKey a) (goalieKey b) = false) := by
      rw [List.pairwise_append]
      refine ⟨pairwise_sortDesc goalieGtB_asymm goalieGtB_negtrans _, ?_, ?_⟩
      · apply List.pairwise_of_forall_mem_list
        intro a _ b hb
        rw [isNanB_true (List.mem_filter.mp hb).2]
        exact pfLtB_nan_right _
      · intro a _ b hb
        rw [isNanB_true (List.mem_filter.mp hb).2]
        exact pfLtB_nan_right _
    unfold top_goalies_by_save_percentage pdHead
    split
    · exact List.Pairwise.sublist (List.take_sublist _ _) hp
    · exact List.Pairwise.sublist (List.take_sublist _ _) hp
  · intro hn r hr
    unfold top_goalies_by_save_percentage
    rw [pdHead_of_le (by rw [hlen]; exact hn)]
    cases hnan : isNanB (goalieKey r)
    · apply List.mem_append_left
      rw [(sortDesc_perm _ _).mem_iff]
      exact List.mem_filter.mpr ⟨hr, by simp [hnan]⟩
    · exact List.mem_append_right _ (List.mem_filter.mpr ⟨hr, hnan⟩)

/-- Witness for C4 (amended): with `n` covering the collection, a NaN-keyed
goalie (0 saves on 0 shots) is still present in the ranked output. -/
theorem claim4_sentinel_ordering_witness :
    (⟨"G", "T", 0, 0, some PFloat.nan⟩ : GoalieRow)
      ∈ top_goalies_by_save_percentage [⟨"G", "T", 0, 0, some PFloat.nan⟩] 1 :=
  (claim4_sentinel_ordering [⟨"G", "T", 0, 0, some PFloat.nan⟩] 1).2 (by decide)
    ⟨"G", "T", 0, 0, some PFloat.nan⟩ (by decide)

/-! ## Claim C5 -/

/-- C5 counterexample: two forwards with equal points, the one named "B"
appearing first in the input — the ranker returns B before A, not the
ascending-name order [A, B] the claim requires. -/
theorem claim5_counterexample :
    ((top_players_by_points
        [⟨"B", "NYR", "Forward", 4, 4, 0, 0, some 8⟩,
         ⟨"A", "BOS", "Forward", 5, 3, 0, 0, some 8⟩] 2).map (fun r => r.playerName)
      = ["B", "A"])
    ∧ ((top_players_by_points
        [⟨"B", "NYR", "Forward", 4, 4, 0, 0, some 8⟩,
         ⟨"A", "BOS", "Forward", 5, 3, 0, 0, some 8⟩] 2).map (fun r => r.playerName)
      ≠ ["A", "B"]) := by decide

/-- C5 amended: the ranker never consults names — renaming every row's
Player Name commutes with `top_players_by_points` (the sort permutation is
computed from the Points column alone, which holds of pandas at every size
and for any sort kernel), so there is no ascending-name tie-break.  The
relative order of equal-point rows is whatever the kernel produces; on a
two-row input, where numpy's kernel is a stable insertion sort, two
equal-point forwards come back in input order, not in name order. -/
theorem claim5_tie_policy (r1 r2 : SkaterRow) (df : List SkaterRow)
    (f : String → String) (n : Int) :
    (top_players_by_points (df.map (renameSkater f)) n
        = (top_players_by_points df n).map (renameSkater f))
    ∧ (skaterPointsKey r1 = skaterPointsKey r2 → (2 : Int) ≤ n →
        top_players_by_points [r1, r2] n = [r1, r2]) := by
  constructor
  · have hg : ∀ a b, skaterGtB (renameSkater f a) (renameSkater f b) = skaterGtB a b :=
      fun a b => rfl
    unfold top_players_by_points
    rw [sortDesc_map_invariant (renameSkater f) hg df, pdHead_map]
  · intro hk hn
    have hgt : skaterGtB r2 r1 = false := by
      simp [skaterGtB, hk]
    unfold top_players_by_points
    have hsort : sortDesc skaterGtB [r1, r2] = [r1, r2] := by
      simp [sortDesc, insertDesc, hgt]
    rw [hsort]
    exact pdHead_of_le (by simpa using hn)

/-- Witness for C5 (amended) at the two equal-point forwards of the
counterexample: the ranker returns them in input order. -/
theorem claim5_tie_policy_witness :
    top_players_by_points
        [(⟨"B", "NYR", "Forward", 4, 4, 0, 0, some 8⟩ : SkaterRow),
         (⟨"A", "BOS", "Forward", 5, 3, 0, 0, some 8⟩ : SkaterRow)] 2
      = [⟨"B", "NYR", "Forward", 4, 4, 0, 0, some 8⟩,
         ⟨"A", "BOS", "Forward", 5, 3, 0, 0, some 8⟩] :=
  (claim5_tie_policy ⟨"B", "NYR", "Forward", 4, 4, 0, 0, some 8⟩
    ⟨"A", "BOS", "Forward", 5, 3, 0, 0, some 8⟩ [] id 2).2 (by decide) (by decide)

/-! ## Characterization of the team-code extraction -/

lemma grabRest_eq_some_iff (cs : List Char) : ∀ (t : List Char),
    grabRest cs = some t ↔
      ((∀ c ∈ t, isUpperAscii c = true) ∧ cs.take (t.length + 1) = t ++ [')']) := by
  induction cs with
  | nil =>
    intro t
    constructor
    · intro h
      simp [grabRest] at h
    · rintro ⟨-, h⟩
      rw [List.take_nil] at h
      have hl := congrArg List.length h
      simp at hl
  | cons c cs ih =>
    intro t
    by_cases hc : c = ')'
    · subst hc
      simp only [grabRest, if_pos rfl]
      constructor
      · intro h
        obtain rfl := (Option.some.inj h).symm
        exact ⟨by simp, by simp [List.take_succ_cons]⟩
      · rintro ⟨hup, htake⟩
        cases t with
        | nil => rfl
        | cons d t2 =>
          exfalso
          simp only [List.length_cons, List.take_succ_cons, List.cons_append] at htake
          injection htake with hd htl
          have hud := hup d (List.mem_cons_self d t2)
          rw [← hd] at hud
          exact absurd hud (by decide)
    · by_cases hu : isUpperAscii c = true
      · simp only [grabRest, if_neg hc, if_pos hu]
        constructor
        · intro h
          obtain ⟨t2, ht2, rfl⟩ : ∃ t2, grabRest cs = some t2 ∧ t = c :: t2 := by
            cases hg : grabRest cs with
            | none => rw [hg] at h; cases h
            | some t2 => rw [hg] at h; exact ⟨t2, rfl, (Option.some.inj h).symm⟩
          obtain ⟨hup2, htake2⟩ := (ih t2).mp ht2
          refine ⟨?_, ?_⟩
          · intro x hx
            rcases List.mem_cons.mp hx with rfl | hx2
            · exact hu
            · exact hup2 x hx2
          · simp only [List.length_cons, List.take_succ_cons, List.cons_append]
            rw [htake2]
        · rintro ⟨hup, htake⟩
          cases t with
          | nil =>
            exfalso
            simp only [List.length_nil, List.take_succ_cons, List.take_zero,
              List.nil_append] at htake
            injection htake with hd _
            exact hc hd
          | cons d t2 =>
            simp only [List.length_cons, List.take_succ_cons, List.cons_append] at htake
            injection htake with hd htl
            subst hd
            rw [(ih t2).mpr ⟨fun x hx => hup x (List.mem_cons_of_mem _ hx), htl⟩]
            rfl
      · simp only [grabRest, if_neg hc, if_neg hu]
        constructor
        · intro h; cases h
        · rintro ⟨hup, htake⟩
          exfalso
          cases t with
          | nil =>
            simp only [List.length_nil, List.take_succ_cons, List.take_zero,
              List.nil_append] at htake
            injection htake with hd _
            exact hc hd
          | cons d t2 =>
            simp only [List.length_cons, List.take_succ_cons, List.cons_append] at htake
            injection htake with hd _
            rw [hd] at hu
            exact hu (hup d (List.mem_cons_self d t2))

lemma grabCode_eq_some_iff (cs t : List Char) :
    grabCode cs = some t ↔
      (t ≠ [] ∧ (∀ c ∈ t, isUpperAscii c = true)
        ∧ cs.take (t.length + 1) = t ++ [')']) := by
  cases cs with
  | nil =>
    constructor
    · intro h; simp [grabCode] at h
    · rintro ⟨-, -, h⟩
      rw [List.take_nil] at h
      have hl := congrArg List.length h
      simp at hl
  | cons c cs =>
    by_cases hu : isUpperAscii c = true
    · simp only [grabCode, if_pos hu]
      constructor
      · intro h
        obtain ⟨t2, ht2, rfl⟩ : ∃ t2, grabRest cs = some t2 ∧ t = c :: t2 := by
          cases hg : grabRest cs with
          | none => rw [hg] at h; cases h
          | some t2 => rw [hg] at h; exact ⟨t2, rfl, (Option.some.inj h).symm⟩
        obtain ⟨hup2, htake2⟩ := (grabRest_eq_some_iff cs t2).mp ht2
        refine ⟨by simp, ?_, ?_⟩
        · intro x hx
          rcases List.mem_cons.mp hx with rfl | hx2
          · exact hu
          · exact hup2 x hx2
        · simp only [List.length_cons, List.take_succ_cons, List.cons_append]
          rw [htake2]
      · rintro ⟨hne, hup, htake⟩
        cases t with
        | nil => exact absurd rfl hne
        | cons d t2 =>
          simp only [List.length_cons, List.take_succ_cons, List.cons_append] at htake
          injection htake with hd htl
          subst hd
          rw [(grabRest_eq_some_iff cs t2).mpr
            ⟨fun x hx => hup x (List.mem_cons_of_mem _ hx), htl⟩]
          rfl
    · simp only [grabCode, if_neg hu]
      constructor
      · intro h; cases h
      · rintro ⟨hne, hup, htake⟩
        cases t with
        | nil => exact absurd rfl hne
        | cons d t2 =>
          simp only [List.length_cons, List.take_succ_cons, List.cons_append] at htake
          injection htake with hd _
          rw [hd] at hu
          exact absurd (hup d (List.mem_cons_self d t2)) hu

lemma codeAt_zero_iff (cs t : List Char) :
    codeAt cs 0 t ↔ ∃ cs2, cs = '(' :: cs2 ∧ grabCode cs2 = some t := by
  cases cs with
  | nil =>
    constructor
    · rintro ⟨-, -, h⟩
      rw [List.drop_nil, List.take_nil] at h
      cases h
    · rintro ⟨cs2, h, -⟩
      cases h
  | cons c cs =>
    constructor
    · rintro ⟨hne, hup, h⟩
      rw [List.drop_zero] at h
      have h2 : c :: cs.take (t.length + 1) = '(' :: (t ++ [')']) := by
        rw [← List.take_succ_cons]
        exact h
      injection h2 with hc htl
      subst hc
      exact ⟨cs, rfl, (grabCode_eq_some_iff cs t).mpr ⟨hne, hup, htl⟩⟩
    · rintro ⟨cs2, hcs, hg⟩
      injection hcs with hc hcs2
      subst hc
      subst hcs2
      obtain ⟨hne, hup, htake⟩ := (grabCode_eq_some_iff _ t).mp hg
      refine ⟨hne, hup, ?_⟩
      rw [List.drop_zero, show t.length + 2 = t.length + 1 + 1 from rfl,
        List.take_succ_cons, htake]

lemma codeAt_succ_iff (c : Char) (cs : List Char) (i : Nat) (t : List Char) :
    codeAt (c :: cs) (i + 1) t ↔ codeAt cs i t := by
  unfold codeAt
  rw [List.drop_succ_cons]

lemma scanMatch_cons_paren_some {cs t0 : List Char}
    (hg : grabCode cs = some t0) : scanMatch ('(' :: cs) = some (0, t0) := by
  simp [scanMatch, hg]

lemma scanMatch_cons_paren_none {cs : List Char} (hg : grabCode cs = none) :
    scanMatch ('(' :: cs) = (scanMatch cs).map (fun p => (p.1 + 1, p.2)) := by
  simp [scanMatch, hg]

lemma scanMatch_cons_other {c : Char} {cs : List Char} (hc : ¬ c = '(') :
    scanMatch (c :: cs) = (scanMatch cs).map (fun p => (p.1 + 1, p.2)) := by
  simp [scanMatch, hc]

lemma scanMatch_eq_none_iff (cs : List Char) :
    scanMatch cs = none ↔ ∀ i t, ¬ codeAt cs i t := by
  induction cs with
  | nil =>
    constructor
    · rintro - i t ⟨-, -, htake⟩
      rw [List.drop_nil, List.take_nil] at htake
      cases htake
    · intro _
      rfl
  | cons c cs ih =>
    by_cases hc : c = '('
    · subst hc
      cases hg : grabCode cs with
      | some t0 =>
        rw [scanMatch_cons_paren_some hg]
        constructor
        · intro h; cases h
        · intro h
          exact absurd ((codeAt_zero_iff _ t0).mpr ⟨cs, rfl, hg⟩) (h 0 t0)
      | none =>
        rw [scanMatch_cons_paren_none hg]
        constructor
        · intro h i t hcode
          have hnone : scanMatch cs = none := by
            cases hs : scanMatch cs with
            | none => rfl
            | some p => rw [hs] at h; cases h
          cases i with
          | zero =>
            obtain ⟨cs2, heq, hg2⟩ := (codeAt_zero_iff _ t).mp hcode
            injection heq with heq1 heq2
            subst heq2
            rw [hg] at hg2
            cases hg2
          | succ j => exact (ih.mp hnone) j t ((codeAt_succ_iff _ _ _ _).mp hcode)
        · intro h
          rw [ih.mpr (fun j t hcode => h (j + 1) t ((codeAt_succ_iff _ _ _ _).mpr hcode))]
          rfl
    · rw [scanMatch_cons_other hc]
      constructor
      · intro h i t hcode
        have hnone : scanMatch cs = none := by
          cases hs : scanMatch cs with
          | none => rfl
          | some p => rw [hs] at h; cases h
        cases i with
        | zero =>
          obtain ⟨cs2, heq, -⟩ := (codeAt_zero_iff _ t).mp hcode
          injection heq with hc2 heq2
          exact hc hc2
        | succ j => exact (ih.mp hnone) j t ((codeAt_succ_iff _ _ _ _).mp hcode)
      · intro h
        rw [ih.mpr (fun j t hcode => h (j + 1) t ((codeAt_succ_iff _ _ _ _).mpr hcode))]
        rfl

lemma scanMatch_eq_some (cs : List Char) : ∀ (i : Nat) (t : List Char),
    scanMatch cs = some (i, t) →
      codeAt cs i t ∧ ∀ j u, codeAt cs j u → i ≤ j := by
  induction cs with
  | nil => intro i t h; cases h
  | cons c cs ih =>
    intro i t h
    by_cases hc : c = '('
    · subst hc
      cases hg : grabCode cs with
      | some t0 =>
        rw [scanMatch_cons_paren_some hg] at h
        have hpair := Option.some.inj h
        injection hpair with h1 h2
        subst h1
        subst h2
        exact ⟨(codeAt_zero_iff _ _).mpr ⟨cs, rfl, hg⟩, fun j u _ => Nat.zero_le j⟩
      | none =>
        rw [scanMatch_cons_paren_none hg] at h
        obtain ⟨p, hp, hipt⟩ : ∃ p, scanMatch cs = some p ∧ (p.1 + 1, p.2) = (i, t) := by
          cases hs : scanMatch cs with
          | none => rw [hs] at h; cases h
          | some p => rw [hs] at h; exact ⟨p, rfl, Option.some.inj h⟩
        obtain ⟨hi, ht⟩ : p.1 + 1 = i ∧ p.2 = t := by
          injection hipt with h1 h2
          exact ⟨h1, h2⟩
        subst hi
        subst ht
        obtain ⟨hcode, hmin⟩ := ih p.1 p.2 (by rw [hp])
        refine ⟨(codeAt_succ_iff _ _ _ _).mpr hcode, ?_⟩
        intro j u hj
        cases j with
        | zero =>
          obtain ⟨cs2, heq, hg2⟩ := (codeAt_zero_iff _ u).mp hj
          injection heq with heq1 heq2
          subst heq2
          rw [hg] at hg2
          cases hg2
        | succ j2 =>
          have hle := hmin j2 u ((codeAt_succ_iff _ _ _ _).mp hj)
          omega
    · rw [scanMatch_cons_other hc] at h
      obtain ⟨p, hp, hipt⟩ : ∃ p, scanMatch cs = some p ∧ (p.1 + 1, p.2) = (i, t) := by
        cases hs : scanMatch cs with
        | none => rw [hs] at h; cases h
        | some p => rw [hs] at h; exact ⟨p, rfl, Option.some.inj h⟩
      obtain ⟨hi, ht⟩ : p.1 + 1 = i ∧ p.2 = t := by
        injection hipt with h1 h2
        exact ⟨h1, h2⟩
      subst hi
      subst ht
      obtain ⟨hcode, hmin⟩ := ih p.1 p.2 (by rw [hp])
      refine ⟨(codeAt_succ_iff _ _ _ _).mpr hcode, ?_⟩
      intro j u hj
      cases j with
      | zero =>
        obtain ⟨cs2, heq, -⟩ := (codeAt_zero_iff _ u).mp hj
        injection heq with hc2 heq2
        exact absurd hc2 hc
      | succ j2 =>
        have hle := hmin j2 u ((codeAt_succ_iff _ _ _ _).mp hj)
        omega

/-! ## Claim C6 -/

/-- C6: `extract_team_code` returns the contents of the first parenthesized
run of one or more uppercase ASCII letters when one occurs (for example
"John Smith (BOS)" yields "BOS"), and `None` — not an error — exactly when no
such pattern occurs; when the scan succeeds the match is the leftmost
occurrence. -/
theorem claim6_extract_team_code_first_match :
    extract_team_code "John Smith (BOS)" = some "BOS"
    ∧ (∀ s : String, extract_team_code s = none ↔ ∀ i t, ¬ codeAt s.data i t)
    ∧ (∀ (s : String) (i : Nat) (t : List Char), scanMatch s.data = some (i, t) →
        extract_team_code s = some (String.mk t)
        ∧ codeAt s.data i t
        ∧ ∀ j u, codeAt s.data j u → i ≤ j) := by
  refine ⟨by decide, ?_, ?_⟩
  · intro s
    constructor
    · intro h
      have hs : scanMatch s.data = none := by
        unfold extract_team_code at h
        cases hs : scanMatch s.data with
        | none => rfl
        | some p => rw [hs] at h; cases h
      exact (scanMatch_eq_none_iff s.data).mp hs
    · intro hall
      unfold extract_team_code
      rw [(scanMatch_eq_none_iff s.data).mpr hall]
  · intro s i t h
    refine ⟨?_, (scanMatch_eq_some s.data i t h).1, (scanMatch_eq_some s.data i t h).2⟩
    unfold extract_team_code
    rw [h]

/-- Witness for C6 at an input with two parenthetical groups: the returned
match "AB" occurs at index 7, the leftmost matching position. -/
theorem claim6_extract_team_code_first_match_witness :
    codeAt ("12(3) x(AB)(CD)").data 7 ['A', 'B'] :=
  ((claim6_extract_team_code_first_match.2.2) "12(3) x(AB)(CD)" 7 ['A', 'B']
    (by decide)).2.1
